import Mathlib

/-!
# Phoenix worker-layer scheduling substrate — shallow embedding

Shallow embedding of the task-scheduling core of the Phoenix repository:

* `src/worker-layer/worker/PhoenixBaseWorker.js` — atomic claim
  (`claimTask`), retry policy (`handleTaskFailure`);
* `src/worker-layer/orchestrator/simpleLoop.js` — dependency resolution,
  lock-timeout recovery and workflow aggregation (`depResolveStep`,
  `reclaimTask` / `reclaimPass`, `wfNewStatus` / `aggregationPass`);
* `src/worker-layer/orchestrator/orchestrator.js` — the alternative
  unblock pass (`allParentsDone` / `unblockStepOrch`);
* `src/worker-layer/worker/PhoenixWorkers.js` — the planner handler's
  task-insertion loop (`plannerInsert`, `plannerProcess`).

Modelling conventions:

* The Mongo `tasks` collection is a `List Task`; list order stands for the
  store's iteration order (for `claimTask`, the `created_at : 1` sort order,
  so "first matching element" is the document `findOneAndUpdate` picks).
* Timestamps are `Int` milliseconds (JS `Date.now()`).
* A field that may be `null`/absent in a document is an `Option`.
  JS `x || d` on a numeric field maps `none` and `some 0` to `d`
  (0, null and undefined are all falsy); `(task.retry_count || 0)` is
  `retry_count.getD 0`.
* Artifacts are modelled as `String`; the JS truthiness test
  `if (d.output_artifact)` becomes `some a` with `a ≠ ""` (null/undefined
  map to `none`, and the empty string is the falsy string).
* `updateOne({_id: i}, u)` updates the first document with `_id = i`
  (`updateFirst`); `findOneAndUpdate` with `returnDocument: 'after'`
  returns the post-image.
-/

namespace Phoenix

/-- Task status enum, `TaskStatus` in `PhoenixBaseWorker.js`. -/
inductive TaskStatus where
  | BLOCKED
  | PENDING
  | IN_PROGRESS
  | COMPLETED
  | FAILED
deriving DecidableEq, Repr

/-- The `input_context` payload of a task.  The orchestrator only ever
writes the `dependency_outputs` sub-field (`$set
'input_context.dependency_outputs'`); everything else is opaque and kept
in `rest`.  `dependency_outputs` is an association list dependency-id ↦
artifact (a JS object in the source). -/
structure InputContext where
  dependency_outputs : List (String × String)
  rest : String
deriving DecidableEq, Repr

/-- A document of the `tasks` collection (data model of the spec §3 /
fields written by `PhoenixBaseWorker.js`, `simpleLoop.js`,
`PhoenixWorkers.js`). -/
structure Task where
  _id : String
  workflow_id : String
  type : String
  description : Option String := none
  status : TaskStatus
  dependencies : List String
  retry_count : Option Nat
  max_retries : Option Nat
  worker_lock : Option String
  locked_at : Option Int
  input_context : InputContext
  output_artifact : Option String
  last_error : Option String
  failed_at : Option Int
  completed_at : Option Int
  created_at : Int
deriving DecidableEq, Repr

/-- `updateOne({_id: i}, {$set: ...})`: apply `f` to the first document
whose `_id` is `i`. -/
def updateFirst (f : Task → Task) (i : String) : List Task → List Task
  | [] => []
  | t :: ts => if t._id = i then f t :: ts else t :: updateFirst f i ts

/-- Look a task up by id (first match, as Mongo does for `_id`). -/
def findTask (ts : List Task) (i : String) : Option Task :=
  ts.find? (fun t => t._id = i)

/-- The filter of the atomic claim in `PhoenixBaseWorker.claimTask`:
`status: PENDING, type: {$in: this.taskTypes}`. -/
def claimMatches (taskTypes : List String) (t : Task) : Bool :=
  t.status = TaskStatus.PENDING && taskTypes.contains t.type

/-- The `$set` of the atomic claim: `status = IN_PROGRESS`,
`worker_lock = workerId`, `locked_at = now`. -/
def applyClaim (workerId : String) (now : Int) (t : Task) : Task :=
  { t with status := TaskStatus.IN_PROGRESS,
           worker_lock := some workerId,
           locked_at := some now }

/-- `PhoenixBaseWorker.claimTask`: one atomic `findOneAndUpdate` that
selects the first (in `created_at` sort order, i.e. list order here)
document matching `claimMatches`, applies `applyClaim`, and returns the
post-image together with the updated store. -/
def claimTask (workerId : String) (taskTypes : List String) (now : Int) :
    List Task → Option Task × List Task
  | [] => (none, [])
  | t :: ts =>
    if claimMatches taskTypes t then
      (some (applyClaim workerId now t), applyClaim workerId now t :: ts)
    else
      let r := claimTask workerId taskTypes now ts
      (r.1, t :: r.2)

namespace ClaimLemmas

theorem claimTask_ids (workerId : String) (taskTypes : List String)
    (now : Int) (ts : List Task) :
    ((claimTask workerId taskTypes now ts).2).map Task._id = ts.map Task._id := by
  induction ts with
  | nil => rfl
  | cons t ts ih =>
    by_cases h : claimMatches taskTypes t = true
    · simp [claimTask, h, applyClaim]
    · simp [claimTask, h, ih]

theorem claimTask_some (workerId : String) (taskTypes : List String)
    (now : Int) (ts : List Task) (t' : Task)
    (h : (claimTask workerId taskTypes now ts).1 = some t') :
    ∃ t ∈ ts, claimMatches taskTypes t = true ∧
      t' = applyClaim workerId now t ∧
      t' ∈ (claimTask workerId taskTypes now ts).2 := by
  induction ts with
  | nil => simp [claimTask] at h
  | cons t ts ih =>
    by_cases hm : claimMatches taskTypes t = true
    · refine ⟨t, by simp, hm, ?_, ?_⟩
      · simp [claimTask, hm] at h
        exact h.symm
      · simp [claimTask, hm] at h ⊢
        exact Or.inl h.symm
    · simp only [claimTask, hm] at h ⊢
      simp only [Bool.false_eq_true, if_neg hm] at h ⊢
      obtain ⟨u, hu, h1, h2, h3⟩ := ih h
      exact ⟨u, by simp [hu], h1, h2, by simp [h3]⟩

end ClaimLemmas

/-- `applyClaim` does not change the document id. -/
theorem applyClaim_id (w : String) (now : Int) (t : Task) :
    (applyClaim w now t)._id = t._id := rfl

/-- C1: `PhoenixBaseWorker.claimTask` is a single find-one-and-update that
matches a task only if its status is PENDING and its type is among the
worker's `taskTypes`, sets status = IN_PROGRESS, `worker_lock` = the
worker's id and `locked_at` = the claim time, and returns the post-image;
and once a claim has succeeded on a task, no later claim (by any worker,
in the serialization that the store's per-document atomicity provides) can
return a task with that id again — so a task reaches IN_PROGRESS only from
PENDING via exactly one winning claim. -/
theorem claim_atomic_exclusive (workerId : String) (taskTypes : List String)
    (now : Int) (ts : List Task) (t' : Task) (ts' : List Task)
    (h : claimTask workerId taskTypes now ts = (some t', ts'))
    (hnodup : (ts.map Task._id).Nodup) :
    (∃ t ∈ ts, t.status = TaskStatus.PENDING ∧ taskTypes.contains t.type = true ∧
       t' = applyClaim workerId now t) ∧
    t'.status = TaskStatus.IN_PROGRESS ∧
    t'.worker_lock = some workerId ∧
    t'.locked_at = some now ∧
    (∀ w2 tys2 now2 t2 ts2, claimTask w2 tys2 now2 ts' = (some t2, ts2) →
       t2._id ≠ t'._id) := by
  have h1 : (claimTask workerId taskTypes now ts).1 = some t' := by rw [h]
  have hts' : (claimTask workerId taskTypes now ts).2 = ts' := by rw [h]
  obtain ⟨t, hmem, hmatch, heq, hpost⟩ :=
    ClaimLemmas.claimTask_some workerId taskTypes now ts t' h1
  have hm := hmatch
  simp only [claimMatches, Bool.and_eq_true, decide_eq_true_eq] at hm
  refine ⟨⟨t, hmem, hm.1, hm.2, heq⟩, by simp [heq, applyClaim],
    by simp [heq, applyClaim], by simp [heq, applyClaim], ?_⟩
  intro w2 tys2 now2 t2 ts2 h2 hid
  have h21 : (claimTask w2 tys2 now2 ts').1 = some t2 := by rw [h2]
  obtain ⟨u, humem, humatch, hueq, _⟩ :=
    ClaimLemmas.claimTask_some w2 tys2 now2 ts' t2 h21
  have hids : ts'.map Task._id = ts.map Task._id := by
    rw [← hts']; exact ClaimLemmas.claimTask_ids workerId taskTypes now ts
  have hnodup' : (ts'.map Task._id).Nodup := by rw [hids]; exact hnodup
  have huid : u._id = t'._id := by
    have : t2._id = u._id := by rw [hueq, applyClaim_id]
    rw [← this, hid]
  have hpost' : t' ∈ ts' := by rw [← hts']; exact hpost
  have hut : u = t' := List.inj_on_of_nodup_map hnodup' humem hpost' huid
  have hu := humatch
  simp only [claimMatches, Bool.and_eq_true, decide_eq_true_eq] at hu
  rw [hut] at hu
  have : t'.status = TaskStatus.IN_PROGRESS := by simp [heq, applyClaim]
  rw [this] at hu
  exact absurd hu.1 (by simp)

/-- A concrete PENDING task used by witnesses. -/
def sampleTask : Task :=
  { _id := "t1", workflow_id := "wf", type := "SEARCH",
    status := TaskStatus.PENDING, dependencies := [],
    retry_count := none, max_retries := none,
    worker_lock := none, locked_at := none,
    input_context := { dependency_outputs := [], rest := "" },
    output_artifact := none, last_error := none,
    failed_at := none, completed_at := none, created_at := 0 }

/-- Witness for C1 on the one-task store `[sampleTask]`. -/
theorem claim_atomic_exclusive_witness :
    (∃ t ∈ [sampleTask], t.status = TaskStatus.PENDING ∧
       (["SEARCH"].contains t.type) = true ∧
       applyClaim "w1" 7 sampleTask = applyClaim "w1" 7 t) ∧
    (applyClaim "w1" 7 sampleTask).status = TaskStatus.IN_PROGRESS ∧
    (applyClaim "w1" 7 sampleTask).worker_lock = some "w1" ∧
    (applyClaim "w1" 7 sampleTask).locked_at = some 7 ∧
    (∀ w2 tys2 now2 t2 ts2,
       claimTask w2 tys2 now2 [applyClaim "w1" 7 sampleTask] = (some t2, ts2) →
       t2._id ≠ (applyClaim "w1" 7 sampleTask)._id) :=
  claim_atomic_exclusive "w1" ["SEARCH"] 7 [sampleTask]
    (applyClaim "w1" 7 sampleTask) [applyClaim "w1" 7 sampleTask]
    (by rfl) (by simp)

/-! ## Retry policy (`PhoenixBaseWorker.handleTaskFailure`) and lease
reclamation (`simpleLoop.js`, STEP 2) -/

/-- The effective retry limit: JS `task.max_retries || 3`.  In JS, `0`,
`null` and `undefined` are all falsy, so an absent, null or zero
`max_retries` yields 3. -/
def effMaxRetries (t : Task) : Nat :=
  match t.max_retries with
  | some n => if n = 0 then 3 else n
  | none => 3

/-- `PhoenixBaseWorker.handleTaskFailure(task, error)`: with
`newRetryCount = (task.retry_count || 0) + 1` and
`maxRetries = task.max_retries || 3`, either reset the task to PENDING for
retry or mark it FAILED permanently.  `errMsg` is `error.message`,
`now` the clock at the failure write. -/
def handleTaskFailure (now : Int) (errMsg : String) (t : Task) : Task :=
  let newRetryCount := t.retry_count.getD 0 + 1
  let maxRetries := effMaxRetries t
  if newRetryCount ≤ maxRetries then
    { t with status := TaskStatus.PENDING, worker_lock := none,
             locked_at := none, retry_count := some newRetryCount,
             last_error := some errMsg }
  else
    { t with status := TaskStatus.FAILED, worker_lock := none,
             locked_at := none, retry_count := some newRetryCount,
             last_error := some errMsg, failed_at := some now }

/-- `LOCK_TIMEOUT_MS = 5 * 60 * 1000` in `simpleLoop.js`. -/
def LOCK_TIMEOUT_MS : Int := 5 * 60 * 1000

/-- The stuck-task filter of `simpleLoop.js` STEP 2:
`status: IN_PROGRESS, locked_at: {$lt: new Date(Date.now() - LOCK_TIMEOUT_MS)}`.
A null `locked_at` does not satisfy a `$lt` date comparison. -/
def stuck (now : Int) (t : Task) : Bool :=
  t.status = TaskStatus.IN_PROGRESS &&
    (match t.locked_at with
     | some l => l < now - LOCK_TIMEOUT_MS
     | none => false)

/-- The per-task update of `simpleLoop.js` STEP 2 (lock timeout recovery):
retries left ⇒ back to PENDING with `retry_count` incremented (and no
`last_error` write); retries exhausted ⇒ FAILED with
`last_error = "Lock timeout after max retries"` (and no `retry_count`
write). -/
def reclaimTask (t : Task) : Task :=
  let newRetryCount := t.retry_count.getD 0 + 1
  let maxRetries := effMaxRetries t
  if newRetryCount ≤ maxRetries then
    { t with status := TaskStatus.PENDING, worker_lock := none,
             locked_at := none, retry_count := some newRetryCount }
  else
    { t with status := TaskStatus.FAILED, worker_lock := none,
             locked_at := none,
             last_error := some "Lock timeout after max retries" }

/-- STEP 2 of one orchestrator tick: every stuck task is reclaimed.  The
source iterates over a snapshot and issues one `updateOne` per stuck task;
since each update touches only that task and the guard uses only fields no
other iteration writes, the iteration is a pointwise map. -/
def reclaimPass (now : Int) (ts : List Task) : List Task :=
  ts.map (fun t => if stuck now t then reclaimTask t else t)

/-- An IN_PROGRESS task with an expired lease and no previous retries. -/
def stuckSample : Task :=
  { sampleTask with _id := "ts1", status := TaskStatus.IN_PROGRESS,
                    worker_lock := some "w1", locked_at := some 0 }

/-- An IN_PROGRESS task with an expired lease and exhausted retries. -/
def exhaustedSample : Task :=
  { sampleTask with _id := "ts2", status := TaskStatus.IN_PROGRESS,
                    worker_lock := some "w1", locked_at := some 0,
                    retry_count := some 3, max_retries := some 3 }

/-- C2 counterexample: the claim says both reclamation outcomes record
`last_error = "lock timeout"`.  On a stuck task with retries left the code
writes no `last_error` at all (it stays `none`), and on a stuck task with
retries exhausted it writes `"Lock timeout after max retries"`, a
different string — and leaves `retry_count` unchanged. -/
theorem reclaim_no_lock_timeout_error :
    stuck 1000000000 stuckSample = true ∧
    (reclaimTask stuckSample).status = TaskStatus.PENDING ∧
    (reclaimTask stuckSample).retry_count = some 1 ∧
    (reclaimTask stuckSample).last_error = none ∧
    stuck 1000000000 exhaustedSample = true ∧
    (reclaimTask exhaustedSample).status = TaskStatus.FAILED ∧
    (reclaimTask exhaustedSample).last_error =
      some "Lock timeout after max retries" ∧
    (reclaimTask exhaustedSample).retry_count = some 3 ∧
    (some "Lock timeout after max retries" : Option String) ≠
      some "lock timeout" := by
  refine ⟨rfl, rfl, rfl, rfl, rfl, rfl, rfl, rfl, by decide⟩

/-- C2 (amended): on each tick, exactly the tasks with status IN_PROGRESS
and `locked_at` earlier than now − 5 min are reclaimed; with retries left
(`retry_count+1 ≤ max_retries||3`) the task returns to PENDING with
`retry_count` incremented and the lock fields cleared, and no `last_error`
is written; with retries exhausted it becomes FAILED with the lock fields
cleared, `last_error = "Lock timeout after max retries"`, and `retry_count`
unchanged. -/
theorem reclaim_policy (now : Int) (ts : List Task) (t : Task)
    (hstuck : stuck now t = true) :
    (t.status = TaskStatus.IN_PROGRESS ∧
       ∃ l, t.locked_at = some l ∧ l < now - LOCK_TIMEOUT_MS) ∧
    (t.retry_count.getD 0 + 1 ≤ effMaxRetries t →
       reclaimTask t =
         { t with status := TaskStatus.PENDING, worker_lock := none,
                  locked_at := none,
                  retry_count := some (t.retry_count.getD 0 + 1) }) ∧
    (t.retry_count.getD 0 + 1 > effMaxRetries t →
       reclaimTask t =
         { t with status := TaskStatus.FAILED, worker_lock := none,
                  locked_at := none,
                  last_error := some "Lock timeout after max retries" }) ∧
    reclaimPass now ts = ts.map (fun u => if stuck now u then reclaimTask u else u) := by
  refine ⟨?_, ?_, ?_, rfl⟩
  · simp only [stuck, Bool.and_eq_true, decide_eq_true_eq] at hstuck
    refine ⟨hstuck.1, ?_⟩
    rcases hl : t.locked_at with _ | l
    · rw [hl] at hstuck; simp at hstuck
    · rw [hl] at hstuck
      simp only [decide_eq_true_eq] at hstuck
      exact ⟨l, rfl, hstuck.2⟩
  · intro hle
    simp only [reclaimTask, if_pos hle]
  · intro hgt
    simp only [reclaimTask, if_neg (by omega : ¬ t.retry_count.getD 0 + 1 ≤ effMaxRetries t)]

/-- Witness for C2 (amended) on `stuckSample` at time 10⁹. -/
theorem reclaim_policy_witness :
    (stuckSample.status = TaskStatus.IN_PROGRESS ∧
       ∃ l, stuckSample.locked_at = some l ∧ l < 1000000000 - LOCK_TIMEOUT_MS) ∧
    (stuckSample.retry_count.getD 0 + 1 ≤ effMaxRetries stuckSample →
       reclaimTask stuckSample =
         { stuckSample with
             status := TaskStatus.PENDING, worker_lock := none,
             locked_at := none,
             retry_count := some (stuckSample.retry_count.getD 0 + 1) }) ∧
    (stuckSample.retry_count.getD 0 + 1 > effMaxRetries stuckSample →
       reclaimTask stuckSample =
         { stuckSample with
             status := TaskStatus.FAILED, worker_lock := none,
             locked_at := none,
             last_error := some "Lock timeout after max retries" }) ∧
    reclaimPass 1000000000 [stuckSample] =
      [stuckSample].map
        (fun u => if stuck 1000000000 u then reclaimTask u else u) :=
  reclaim_policy 1000000000 [stuckSample] stuckSample rfl

/-- A task explicitly configured with `max_retries = 0`, never retried. -/
def zeroRetrySample : Task :=
  { sampleTask with _id := "tz", status := TaskStatus.IN_PROGRESS,
                    worker_lock := some "w1", locked_at := some 0,
                    max_retries := some 0, retry_count := some 0 }

/-- C3 counterexample: for a task with `max_retries = 0` and
`retry_count = 0` the claim (with `m = max_retries = 0` and `r = 1 > m`)
requires the failure write to set status = FAILED, but
`handleTaskFailure` uses `max_retries || 3` and writes status = PENDING. -/
theorem handleTaskFailure_zero_max_retries :
    zeroRetrySample.max_retries = some 0 ∧
    zeroRetrySample.retry_count.getD 0 + 1 = 1 ∧
    (handleTaskFailure 5 "boom" zeroRetrySample).status = TaskStatus.PENDING ∧
    (handleTaskFailure 5 "boom" zeroRetrySample).status ≠ TaskStatus.FAILED :=
  ⟨rfl, rfl, rfl, by decide⟩

/-- C3 (amended): on handler error with message `errMsg`, with
`r = retry_count (or 0) + 1` and `m = max_retries || 3` (i.e. 3 when
`max_retries` is 0, null or absent): if `r ≤ m` the worker writes
status = PENDING, clears the lock fields, and sets `retry_count = r` and
`last_error = errMsg`; if `r > m` it writes status = FAILED, clears the
lock fields, and sets `retry_count = r`, `last_error = errMsg` and
`failed_at = now`. -/
theorem handleTaskFailure_policy (now : Int) (errMsg : String) (t : Task) :
    (t.retry_count.getD 0 + 1 ≤ effMaxRetries t →
       handleTaskFailure now errMsg t =
         { t with status := TaskStatus.PENDING, worker_lock := none,
                  locked_at := none,
                  retry_count := some (t.retry_count.getD 0 + 1),
                  last_error := some errMsg }) ∧
    (t.retry_count.getD 0 + 1 > effMaxRetries t →
       handleTaskFailure now errMsg t =
         { t with status := TaskStatus.FAILED, worker_lock := none,
                  locked_at := none,
                  retry_count := some (t.retry_count.getD 0 + 1),
                  last_error := some errMsg, failed_at := some now }) := by
  constructor
  · intro hle
    simp only [handleTaskFailure, if_pos hle]
  · intro hgt
    simp only [handleTaskFailure,
      if_neg (by omega : ¬ t.retry_count.getD 0 + 1 ≤ effMaxRetries t)]

/-- Witness for C3 (amended) on `sampleTask` (retries left). -/
theorem handleTaskFailure_policy_witness :
    handleTaskFailure 5 "boom" sampleTask =
      { sampleTask with status := TaskStatus.PENDING, worker_lock := none,
                        locked_at := none, retry_count := some 1,
                        last_error := some "boom" } :=
  (handleTaskFailure_policy 5 "boom" sampleTask).1 (by decide)

/-- C10: when `max_retries` is 0, null or absent, both the worker's
failure handler and the orchestrator's lease reclamation treat the retry
limit as 3 (`max_retries || 3`), so such a task is returned to PENDING
with `retry_count = 1` on its first failure rather than becoming
FAILED. -/
theorem max_retries_falsy_defaults_to_three (now : Int) (errMsg : String)
    (t : Task) (h : t.max_retries = some 0 ∨ t.max_retries = none) :
    effMaxRetries t = 3 ∧
    (t.retry_count = some 0 ∨ t.retry_count = none →
       (handleTaskFailure now errMsg t).status = TaskStatus.PENDING ∧
       (handleTaskFailure now errMsg t).retry_count = some 1 ∧
       (reclaimTask t).status = TaskStatus.PENDING ∧
       (reclaimTask t).retry_count = some 1) := by
  have hm : effMaxRetries t = 3 := by
    rcases h with h | h <;> simp [effMaxRetries, h]
  refine ⟨hm, ?_⟩
  intro hr
  have hr0 : t.retry_count.getD 0 = 0 := by
    rcases hr with h' | h' <;> simp [h']
  simp [handleTaskFailure, reclaimTask, hr0, hm]

/-- Witness for C10 on `zeroRetrySample` (`max_retries = 0`,
`retry_count = 0`). -/
theorem max_retries_falsy_defaults_to_three_witness :
    effMaxRetries zeroRetrySample = 3 ∧
    (zeroRetrySample.retry_count = some 0 ∨ zeroRetrySample.retry_count = none →
       (handleTaskFailure 5 "boom" zeroRetrySample).status = TaskStatus.PENDING ∧
       (handleTaskFailure 5 "boom" zeroRetrySample).retry_count = some 1 ∧
       (reclaimTask zeroRetrySample).status = TaskStatus.PENDING ∧
       (reclaimTask zeroRetrySample).retry_count = some 1) :=
  max_retries_falsy_defaults_to_three 5 "boom" zeroRetrySample (Or.inl rfl)

/-! ## Dependency resolution (`simpleLoop.js` STEP 1, `orchestrator.js`
MISSION 1) -/

/-- The dependency documents that actually exist in the store:
`db.collection('tasks').find({_id: {$in: task.dependencies}})`.  A
dependency id matching no document contributes nothing. -/
def existingDeps (cur : List Task) (t : Task) : List Task :=
  cur.filter (fun d => t.dependencies.contains d._id)

/-- `depOutputs` of `simpleLoop.js`: the object built by
`deps.forEach(d => { if (d.output_artifact) depOutputs[d._id] = d.output_artifact })`.
Only dependencies with a truthy `output_artifact` get an entry. -/
def depOutputs : List Task → List (String × String)
  | [] => []
  | d :: ds =>
    match d.output_artifact with
    | some a => if a ≠ "" then (d._id, a) :: depOutputs ds else depOutputs ds
    | none => depOutputs ds

/-- One iteration of `simpleLoop.js` STEP 1 for the snapshot task `t`,
acting on the current store `cur`: unblock immediately when
`t.dependencies` is empty; else unblock with `dependency_outputs` when all
existing dependencies are COMPLETED; else fail the task when any existing
dependency is FAILED; else leave it BLOCKED. -/
def depResolveStep (cur : List Task) (t : Task) : List Task :=
  if t.dependencies.isEmpty then
    updateFirst (fun u => { u with status := TaskStatus.PENDING }) t._id cur
  else
    let deps := existingDeps cur t
    let allDepsCompleted := deps.all (fun d => d.status = TaskStatus.COMPLETED)
    let anyDepFailed := deps.any (fun d => d.status = TaskStatus.FAILED)
    if allDepsCompleted then
      updateFirst
        (fun u =>
          { u with status := TaskStatus.PENDING,
                   input_context :=
                     { u.input_context with dependency_outputs := depOutputs deps } })
        t._id cur
    else if anyDepFailed then
      updateFirst
        (fun u =>
          { u with status := TaskStatus.FAILED,
                   last_error := some "Dependency failed" })
        t._id cur
    else cur

/-- STEP 1 of one orchestrator tick: iterate over the snapshot of BLOCKED
tasks, threading the store (earlier updates are visible to later
iterations, as in the source where each iteration re-reads dependencies
from the live collection). -/
def depResolvePass (cur : List Task) : List Task :=
  (cur.filter (fun t => t.status = TaskStatus.BLOCKED)).foldl depResolveStep cur

/-- `allParentsDone` of `orchestrator.js` MISSION 1:
`parents.every(p => p.status === 'COMPLETED')` over the parents that exist
in the store. -/
def allParentsDone (cur : List Task) (t : Task) : Bool :=
  (cur.filter (fun d => t.dependencies.contains d._id)).all
    (fun d => d.status = TaskStatus.COMPLETED)

/-- One iteration of `orchestrator.js` MISSION 1 (it only unblocks; it has
no dependency-failure branch and writes no `dependency_outputs`). -/
def unblockStepOrch (cur : List Task) (t : Task) : List Task :=
  if allParentsDone cur t then
    updateFirst (fun u => { u with status := TaskStatus.PENDING }) t._id cur
  else cur

/-- `i` names a COMPLETED task of the store. -/
def depCompleted (ts : List Task) (i : String) : Bool :=
  ts.any (fun d => d._id = i && d.status = TaskStatus.COMPLETED)

/-- Looking up the updated id after `updateFirst` applies `f` to the
looked-up document. -/
theorem findTask_updateFirst (f : Task → Task) (i : String) (ts : List Task)
    (hf : ∀ t, (f t)._id = t._id) :
    findTask (updateFirst f i ts) i = (findTask ts i).map f := by
  induction ts with
  | nil => rfl
  | cons t ts ih =>
    by_cases h : t._id = i
    · simp [updateFirst, findTask, h, List.find?_cons, hf t]
    · simp only [updateFirst, if_neg h]
      simp only [findTask, List.find?_cons] at ih ⊢
      have hd : (decide (t._id = i)) = false := by simp [h]
      rw [hd]
      simp only [cond_false]
      exact ih

/-- `allParentsDone` is the COMPLETED-check over the existing
dependencies. -/
theorem allParentsDone_eq (cur : List Task) (t : Task) :
    allParentsDone cur t =
      (existingDeps cur t).all (fun d => d.status = TaskStatus.COMPLETED) := rfl

/-- C9: both dependency-resolution passes evaluate "all dependencies
COMPLETED" only over the dependency ids that match an existing task
document, so a BLOCKED task is unblocked to PENDING iff every *existing*
dependency is COMPLETED — and when none of its listed dependency ids
exists, it is unblocked unconditionally (by `simpleLoop.js` and by
`orchestrator.js` alike). -/
theorem dep_resolution_existing_only (cur : List Task) (t : Task)
    (hmem : findTask cur t._id = some t) (hb : t.status = TaskStatus.BLOCKED) :
    (((findTask (depResolveStep cur t) t._id).map Task.status =
        some TaskStatus.PENDING) ↔
      (existingDeps cur t).all (fun d => d.status = TaskStatus.COMPLETED) = true) ∧
    (existingDeps cur t = [] →
      (findTask (depResolveStep cur t) t._id).map Task.status =
        some TaskStatus.PENDING ∧
      (findTask (unblockStepOrch cur t) t._id).map Task.status =
        some TaskStatus.PENDING) := by
  have hfindP := findTask_updateFirst
    (fun u => { u with status := TaskStatus.PENDING }) t._id cur
    (fun u => rfl)
  have hOrch : existingDeps cur t = [] →
      (findTask (unblockStepOrch cur t) t._id).map Task.status =
        some TaskStatus.PENDING := by
    intro hE
    have hall : allParentsDone cur t = true := by
      rw [allParentsDone_eq, hE]; rfl
    rw [unblockStepOrch, if_pos hall, hfindP, hmem]
    rfl
  by_cases hdep : t.dependencies.isEmpty = true
  · have h1 : depResolveStep cur t =
        updateFirst (fun u => { u with status := TaskStatus.PENDING }) t._id cur := by
      simp [depResolveStep, hdep]
    have h2 : existingDeps cur t = [] := by
      have hnil : t.dependencies = [] := List.isEmpty_iff.mp hdep
      simp [existingDeps, hnil]
    refine ⟨?_, fun _ => ⟨?_, hOrch h2⟩⟩
    · rw [h1, hfindP, hmem, h2]
      simp
    · rw [h1, hfindP, hmem]
      rfl
  · by_cases hall : (existingDeps cur t).all
        (fun d => d.status = TaskStatus.COMPLETED) = true
    · have h1 : depResolveStep cur t =
          updateFirst
            (fun u =>
              { u with status := TaskStatus.PENDING,
                       input_context :=
                         { u.input_context with
                             dependency_outputs := depOutputs (existingDeps cur t) } })
            t._id cur := by
        simp [depResolveStep, hdep, hall]
      have hfindC := findTask_updateFirst
        (fun u =>
          { u with status := TaskStatus.PENDING,
                   input_context :=
                     { u.input_context with
                         dependency_outputs := depOutputs (existingDeps cur t) } })
        t._id cur (fun u => rfl)
      have hres : (findTask (depResolveStep cur t) t._id).map Task.status =
          some TaskStatus.PENDING := by
        rw [h1, hfindC, hmem]
        rfl
      exact ⟨by simp [hres, hall], fun hE => ⟨hres, hOrch hE⟩⟩
    · have hEne : existingDeps cur t ≠ [] := by
        intro hE
        rw [hE] at hall
        exact hall rfl
      refine ⟨?_, fun hE => absurd hE hEne⟩
      by_cases hfail : (existingDeps cur t).any
          (fun d => d.status = TaskStatus.FAILED) = true
      · have h1 : depResolveStep cur t =
            updateFirst
              (fun u =>
                { u with status := TaskStatus.FAILED,
                         last_error := some "Dependency failed" })
              t._id cur := by
          simp [depResolveStep, hdep, hall, hfail]
        have hfindF := findTask_updateFirst
          (fun u =>
            { u with status := TaskStatus.FAILED,
                     last_error := some "Dependency failed" })
          t._id cur (fun u => rfl)
        rw [h1, hfindF, hmem]
        simp [hall]
      · have h1 : depResolveStep cur t = cur := by
          simp [depResolveStep, hdep, hall, hfail]
        rw [h1, hmem]
        have hts : Option.map Task.status (some t) = some t.status := rfl
        rw [hts]
        constructor
        · intro hcontra
          rw [hb] at hcontra
          exact absurd (Option.some.inj hcontra) (by decide)
        · intro hc
          exact absurd hc hall

/-- A BLOCKED task whose two dependency ids name no document in the
store. -/
def orphanTask : Task :=
  { sampleTask with _id := "to", status := TaskStatus.BLOCKED,
                    dependencies := ["ghost1", "ghost2"] }

/-- Witness for C9 on a one-task store where `orphanTask`'s dependencies
match nothing. -/
theorem dep_resolution_existing_only_witness :
    (((findTask (depResolveStep [orphanTask] orphanTask) orphanTask._id).map
        Task.status = some TaskStatus.PENDING) ↔
      (existingDeps [orphanTask] orphanTask).all
        (fun d => d.status = TaskStatus.COMPLETED) = true) ∧
    (existingDeps [orphanTask] orphanTask = [] →
      (findTask (depResolveStep [orphanTask] orphanTask) orphanTask._id).map
        Task.status = some TaskStatus.PENDING ∧
      (findTask (unblockStepOrch [orphanTask] orphanTask) orphanTask._id).map
        Task.status = some TaskStatus.PENDING) :=
  dep_resolution_existing_only [orphanTask] orphanTask (by rfl) (by rfl)

/-- Every existing dependency with a truthy `output_artifact` contributes
its entry to `depOutputs`. -/
theorem depOutputs_complete (ds : List Task) (d : Task) (a : String)
    (hd : d ∈ ds) (ha : d.output_artifact = some a) (hne : a ≠ "") :
    (d._id, a) ∈ depOutputs ds := by
  induction ds with
  | nil => cases hd
  | cons e es ih =>
    rcases List.mem_cons.mp hd with he | hd'
    · subst he
      simp [depOutputs, ha, hne]
    · have hmem' := ih hd'
      rcases hout : e.output_artifact with _ | b
      · simpa [depOutputs, hout] using hmem'
      · by_cases hb : b = ""
        · simpa [depOutputs, hout, hb] using hmem'
        · simp only [depOutputs, hout, if_pos hb, ne_eq, hb, not_false_iff,
            if_true, List.mem_cons]
          exact Or.inr hmem'

/-- Every entry of `depOutputs` comes from an existing dependency whose
`output_artifact` it equals. -/
theorem depOutputs_sound (ds : List Task) :
    ∀ p ∈ depOutputs ds, ∃ d ∈ ds, d._id = p.1 ∧ d.output_artifact = some p.2 := by
  induction ds with
  | nil => intro p hp; simp [depOutputs] at hp
  | cons e es ih =>
    intro p hp
    rcases hout : e.output_artifact with _ | b
    · rw [depOutputs, hout] at hp
      obtain ⟨d, hd, h1, h2⟩ := ih p hp
      exact ⟨d, List.mem_cons_of_mem e hd, h1, h2⟩
    · by_cases hb : b = ""
      · rw [depOutputs, hout] at hp
        simp only [ne_eq, hb, not_true_eq_false, if_false] at hp
        obtain ⟨d, hd, h1, h2⟩ := ih p hp
        exact ⟨d, List.mem_cons_of_mem e hd, h1, h2⟩
      · rw [depOutputs, hout] at hp
        simp only [ne_eq, hb, not_false_iff, if_true, List.mem_cons] at hp
        rcases hp with hp | hp
        · subst hp
          exact ⟨e, List.mem_cons_self e es, rfl, hout⟩
        · obtain ⟨d, hd, h1, h2⟩ := ih p hp
          exact ⟨d, List.mem_cons_of_mem e hd, h1, h2⟩

/-- C4 (amended): when a BLOCKED task has an existing dependency in
status FAILED (and not all existing dependencies COMPLETED), the
dependency-resolution step of `simpleLoop.js` marks it FAILED with
`last_error = "Dependency failed"` (capital D), and the resulting
document can never be matched by a worker's claim filter — so no handler
is ever invoked for it (handlers run only on claimed tasks). -/
theorem dep_failed_propagation (cur : List Task) (t : Task)
    (hmem : findTask cur t._id = some t) (hb : t.status = TaskStatus.BLOCKED)
    (hfail : (existingDeps cur t).any
      (fun d => d.status = TaskStatus.FAILED) = true) :
    findTask (depResolveStep cur t) t._id =
      some { t with status := TaskStatus.FAILED,
                    last_error := some "Dependency failed" } ∧
    (∀ tys, claimMatches tys
       { t with status := TaskStatus.FAILED,
                last_error := some "Dependency failed" } = false) := by
  obtain ⟨d, hd, hdf⟩ := List.any_eq_true.mp hfail
  have hdf' : d.status = TaskStatus.FAILED := of_decide_eq_true hdf
  have hdep : ¬ t.dependencies.isEmpty = true := by
    intro habs
    have hnil : t.dependencies = [] := List.isEmpty_iff.mp habs
    rw [existingDeps, hnil] at hd
    simp at hd
  have hall : ¬ (existingDeps cur t).all
      (fun d => d.status = TaskStatus.COMPLETED) = true := by
    intro habs
    have := of_decide_eq_true (List.all_eq_true.mp habs d hd)
    rw [hdf'] at this
    cases this
  have h1 : depResolveStep cur t =
      updateFirst
        (fun u =>
          { u with status := TaskStatus.FAILED,
                   last_error := some "Dependency failed" })
        t._id cur := by
    simp [depResolveStep, hdep, hall, hfail]
  have hfindF := findTask_updateFirst
    (fun u =>
      { u with status := TaskStatus.FAILED,
               last_error := some "Dependency failed" })
    t._id cur (fun u => rfl)
  refine ⟨?_, ?_⟩
  · rw [h1, hfindF, hmem]
    rfl
  · intro tys
    simp [claimMatches]

/-- A terminally FAILED dependency. -/
def failedDep : Task :=
  { sampleTask with _id := "A", status := TaskStatus.FAILED }

/-- A BLOCKED task depending on `failedDep`. -/
def blockedOnFailed : Task :=
  { sampleTask with _id := "B", status := TaskStatus.BLOCKED,
                    dependencies := ["A"] }

/-- The two-task store for the C4 instances. -/
def cur4 : List Task := [blockedOnFailed, failedDep]

/-- C4 counterexample: the failed-dependency write records
`last_error = "Dependency failed"`, not the claimed
`"dependency failed"`. -/
theorem dep_failed_error_string :
    (findTask (depResolveStep cur4 blockedOnFailed) "B").map Task.status =
      some TaskStatus.FAILED ∧
    (findTask (depResolveStep cur4 blockedOnFailed) "B").map Task.last_error =
      some (some "Dependency failed") ∧
    (findTask (depResolveStep cur4 blockedOnFailed) "B").map Task.last_error ≠
      some (some "dependency failed") :=
  ⟨rfl, rfl, by decide⟩

/-- Witness for C4 (amended) on the store `cur4`. -/
theorem dep_failed_propagation_witness :
    findTask (depResolveStep cur4 blockedOnFailed) blockedOnFailed._id =
      some { blockedOnFailed with status := TaskStatus.FAILED,
                                  last_error := some "Dependency failed" } ∧
    (∀ tys, claimMatches tys
       { blockedOnFailed with status := TaskStatus.FAILED,
                              last_error := some "Dependency failed" } = false) :=
  dep_failed_propagation cur4 blockedOnFailed rfl rfl rfl

/-- C5 (amended): when the dependency-resolution step moves a BLOCKED
task `t` with a non-empty dependency list to PENDING, every dependency of
`t` *that exists in the store* is COMPLETED at that instant, and the same
update sets `input_context.dependency_outputs` to the map built from the
existing dependencies, which has an entry equal to `d.output_artifact`
for exactly those existing dependencies `d` whose `output_artifact` is
truthy. -/
theorem artifact_flow (cur : List Task) (t : Task)
    (hmem : findTask cur t._id = some t) (hb : t.status = TaskStatus.BLOCKED)
    (hne : t.dependencies.isEmpty = false)
    (hall : (existingDeps cur t).all
      (fun d => d.status = TaskStatus.COMPLETED) = true) :
    findTask (depResolveStep cur t) t._id =
      some { t with status := TaskStatus.PENDING,
                    input_context :=
                      { t.input_context with
                          dependency_outputs := depOutputs (existingDeps cur t) } } ∧
    (∀ d ∈ existingDeps cur t, d.status = TaskStatus.COMPLETED) ∧
    (∀ d ∈ existingDeps cur t, ∀ a, d.output_artifact = some a → a ≠ "" →
       (d._id, a) ∈ depOutputs (existingDeps cur t)) ∧
    (∀ p ∈ depOutputs (existingDeps cur t),
       ∃ d ∈ existingDeps cur t, d._id = p.1 ∧ d.output_artifact = some p.2) := by
  have h1 : depResolveStep cur t =
      updateFirst
        (fun u =>
          { u with status := TaskStatus.PENDING,
                   input_context :=
                     { u.input_context with
                         dependency_outputs := depOutputs (existingDeps cur t) } })
        t._id cur := by
    simp [depResolveStep, hne, hall]
  have hfindC := findTask_updateFirst
    (fun u =>
      { u with status := TaskStatus.PENDING,
               input_context :=
                 { u.input_context with
                     dependency_outputs := depOutputs (existingDeps cur t) } })
    t._id cur (fun u => rfl)
  refine ⟨?_, ?_, ?_, depOutputs_sound (existingDeps cur t)⟩
  · rw [h1, hfindC, hmem]
    rfl
  · intro d hd
    exact of_decide_eq_true (List.all_eq_true.mp hall d hd)
  · intro d hd a ha hane
    exact depOutputs_complete (existingDeps cur t) d a hd ha hane

/-- A BLOCKED task with one dependency id that matches no document and a
second one that matches a COMPLETED document with a null
`output_artifact`. -/
def ghostDepTask : Task :=
  { sampleTask with _id := "T5", status := TaskStatus.BLOCKED,
                    dependencies := ["d1", "d2"] }

/-- A COMPLETED dependency whose `output_artifact` is null. -/
def nullOutputDep : Task :=
  { sampleTask with _id := "d2", status := TaskStatus.COMPLETED }

/-- The store for the C5 counterexample: dependency `d1` does not
exist. -/
def cur5 : List Task := [ghostDepTask, nullOutputDep]

/-- C5 counterexample: the step unblocks `ghostDepTask` to PENDING even
though its dependency `d1` is not COMPLETED (it does not exist), and the
merged `dependency_outputs` is empty — no entry for `d1` or `d2`, so the
entry-for-every-dependency reading fails as well. -/
theorem artifact_flow_counterexample :
    (findTask (depResolveStep cur5 ghostDepTask) "T5").map Task.status =
      some TaskStatus.PENDING ∧
    ghostDepTask.dependencies.all (depCompleted cur5) = false ∧
    (findTask (depResolveStep cur5 ghostDepTask) "T5").map
      (fun u => u.input_context.dependency_outputs) = some [] :=
  ⟨rfl, by decide, rfl⟩

/-- A COMPLETED dependency with a truthy artifact. -/
def completedDep : Task :=
  { sampleTask with _id := "A", status := TaskStatus.COMPLETED,
                    output_artifact := some "artA" }

/-- A BLOCKED task depending on `completedDep`. -/
def blockedOnCompleted : Task :=
  { sampleTask with _id := "C", status := TaskStatus.BLOCKED,
                    dependencies := ["A"] }

/-- The store for the C5 witness. -/
def cur5w : List Task := [blockedOnCompleted, completedDep]

/-- Witness for C5 (amended) on the store `cur5w`. -/
theorem artifact_flow_witness :
    findTask (depResolveStep cur5w blockedOnCompleted) blockedOnCompleted._id =
      some { blockedOnCompleted with
               status := TaskStatus.PENDING,
               input_context :=
                 { blockedOnCompleted.input_context with
                     dependency_outputs :=
                       depOutputs (existingDeps cur5w blockedOnCompleted) } } ∧
    (∀ d ∈ existingDeps cur5w blockedOnCompleted,
       d.status = TaskStatus.COMPLETED) ∧
    (∀ d ∈ existingDeps cur5w blockedOnCompleted, ∀ a,
       d.output_artifact = some a → a ≠ "" →
       (d._id, a) ∈ depOutputs (existingDeps cur5w blockedOnCompleted)) ∧
    (∀ p ∈ depOutputs (existingDeps cur5w blockedOnCompleted),
       ∃ d ∈ existingDeps cur5w blockedOnCompleted,
         d._id = p.1 ∧ d.output_artifact = some p.2) :=
  artifact_flow cur5w blockedOnCompleted rfl rfl rfl rfl

/-! ## Workflow aggregation (`simpleLoop.js` STEP 3) -/

/-- Workflow status values used by `simpleLoop.js`. -/
inductive WorkflowStatus where
  | PENDING
  | RUNNING
  | COMPLETED
  | FAILED
deriving DecidableEq, Repr

/-- A document of the `workflows` collection (only the fields STEP 3
reads or writes). -/
structure Workflow where
  _id : String
  status : WorkflowStatus
deriving DecidableEq, Repr

/-- `db.collection('tasks').find({workflow_id: wf._id})`. -/
def tasksOf (ts : List Task) (wid : String) : List Task :=
  ts.filter (fun t => t.workflow_id = wid)

/-- The new status computed by STEP 3 for one workflow: skip when the
workflow has no tasks (`if (tasks.length === 0) continue`), else the
priority chain allCompleted / anyFailed-and-none-running / anyInProgress
(where "in progress" includes PENDING), else keep the old status. -/
def wfNewStatus (w : WorkflowStatus) (tasks : List Task) : WorkflowStatus :=
  if tasks.isEmpty then w
  else
    let allCompleted := tasks.all (fun t => t.status = TaskStatus.COMPLETED)
    let anyFailed := tasks.any (fun t => t.status = TaskStatus.FAILED)
    let anyInProgress := tasks.any (fun t =>
      t.status = TaskStatus.IN_PROGRESS || t.status = TaskStatus.PENDING)
    if allCompleted then WorkflowStatus.COMPLETED
    else if anyFailed && !anyInProgress then WorkflowStatus.FAILED
    else if anyInProgress then WorkflowStatus.RUNNING
    else w

/-- STEP 3 for one workflow document: only workflows with status in
`['PENDING', 'RUNNING']` are selected; the conditional `updateOne` (only
when the status changed) has the same post-state as writing
`wfNewStatus` unconditionally. -/
def aggOne (ts : List Task) (wf : Workflow) : Workflow :=
  if wf.status = WorkflowStatus.PENDING ∨ wf.status = WorkflowStatus.RUNNING then
    { wf with status := wfNewStatus wf.status (tasksOf ts wf._id) }
  else wf

/-- STEP 3 of one orchestrator tick over the `workflows` collection. -/
def aggregationPass (ts : List Task) (wfs : List Workflow) : List Workflow :=
  wfs.map (aggOne ts)

/-- If every task is COMPLETED then none is FAILED and none is PENDING or
IN_PROGRESS. -/
theorem allCompleted_excludes (tasks : List Task)
    (h : tasks.all (fun t => t.status = TaskStatus.COMPLETED) = true) :
    tasks.any (fun t =>
      t.status = TaskStatus.IN_PROGRESS || t.status = TaskStatus.PENDING) = false ∧
    tasks.any (fun t => t.status = TaskStatus.FAILED) = false := by
  have hcomp := List.all_eq_true.mp h
  constructor
  · cases hany : tasks.any (fun t =>
        t.status = TaskStatus.IN_PROGRESS || t.status = TaskStatus.PENDING) with
    | false => rfl
    | true =>
      obtain ⟨d, hd, hp⟩ := List.any_eq_true.mp hany
      have hc : d.status = TaskStatus.COMPLETED := of_decide_eq_true (hcomp d hd)
      rcases (by simpa using hp :
          d.status = TaskStatus.IN_PROGRESS ∨ d.status = TaskStatus.PENDING) with
        hp' | hp' <;>
        · rw [hc] at hp'
          cases hp'
  · cases hany : tasks.any (fun t => t.status = TaskStatus.FAILED) with
    | false => rfl
    | true =>
      obtain ⟨d, hd, hp⟩ := List.any_eq_true.mp hany
      have hc : d.status = TaskStatus.COMPLETED := of_decide_eq_true (hcomp d hd)
      have := of_decide_eq_true hp
      rw [hc] at this
      cases this

/-- `wfNewStatus` written as the source's priority chain, once the task
list is non-empty. -/
theorem wfNewStatus_eq (w : WorkflowStatus) (tasks : List Task)
    (hE : tasks.isEmpty = false) :
    wfNewStatus w tasks =
      (if tasks.all (fun t => t.status = TaskStatus.COMPLETED) then
        WorkflowStatus.COMPLETED
       else if tasks.any (fun t => t.status = TaskStatus.FAILED) &&
           !tasks.any (fun t =>
             t.status = TaskStatus.IN_PROGRESS || t.status = TaskStatus.PENDING) then
        WorkflowStatus.FAILED
       else if tasks.any (fun t =>
           t.status = TaskStatus.IN_PROGRESS || t.status = TaskStatus.PENDING) then
        WorkflowStatus.RUNNING
       else w) := by
  simp [wfNewStatus, hE]

/-- Recomputing `wfNewStatus` on an unchanged task list is the identity
whenever the first computation still yields a selectable (PENDING or
RUNNING) status. -/
theorem wfNewStatus_idem (w : WorkflowStatus) (tasks : List Task)
    (hs : wfNewStatus w tasks = WorkflowStatus.PENDING ∨
          wfNewStatus w tasks = WorkflowStatus.RUNNING) :
    wfNewStatus (wfNewStatus w tasks) tasks = wfNewStatus w tasks := by
  cases hE : tasks.isEmpty with
  | true => simp [wfNewStatus, hE]
  | false =>
    rw [wfNewStatus_eq w tasks hE] at hs ⊢
    rw [wfNewStatus_eq _ tasks hE]
    by_cases hAll : tasks.all (fun t => t.status = TaskStatus.COMPLETED) = true
    · rw [if_pos hAll] at hs
      rcases hs with hs | hs <;> cases hs
    · by_cases hAct : tasks.any (fun t =>
          t.status = TaskStatus.IN_PROGRESS || t.status = TaskStatus.PENDING) = true
      · simp [hAll, hAct]
      · by_cases hFail : tasks.any (fun t => t.status = TaskStatus.FAILED) = true
        · have hActF : tasks.any (fun t =>
              t.status = TaskStatus.IN_PROGRESS ||
                t.status = TaskStatus.PENDING) = false :=
            Bool.eq_false_iff.mpr hAct
          rw [if_neg hAll, if_pos (by rw [hFail, hActF]; rfl)] at hs
          rcases hs with hs | hs <;> cases hs
        · have hActF : tasks.any (fun t =>
              t.status = TaskStatus.IN_PROGRESS ||
                t.status = TaskStatus.PENDING) = false :=
            Bool.eq_false_iff.mpr hAct
          have hFailF : tasks.any (fun t => t.status = TaskStatus.FAILED) = false :=
            Bool.eq_false_iff.mpr hFail
          simp [hAll, hActF, hFailF]

/-- Re-running STEP 3 on one workflow with no intervening writes changes
nothing. -/
theorem aggOne_idem (ts : List Task) (wf : Workflow) :
    aggOne ts (aggOne ts wf) = aggOne ts wf := by
  obtain ⟨i, st⟩ := wf
  by_cases hsel : st = WorkflowStatus.PENDING ∨ st = WorkflowStatus.RUNNING
  · have h1 : aggOne ts ⟨i, st⟩ = ⟨i, wfNewStatus st (tasksOf ts i)⟩ := by
      rw [aggOne, if_pos hsel]
    rw [h1]
    by_cases hsel2 : wfNewStatus st (tasksOf ts i) = WorkflowStatus.PENDING ∨
        wfNewStatus st (tasksOf ts i) = WorkflowStatus.RUNNING
    · have h2 : aggOne ts ⟨i, wfNewStatus st (tasksOf ts i)⟩ =
          ⟨i, wfNewStatus (wfNewStatus st (tasksOf ts i)) (tasksOf ts i)⟩ := by
        rw [aggOne, if_pos hsel2]
      rw [h2, wfNewStatus_idem st (tasksOf ts i) hsel2]
    · rw [aggOne, if_neg hsel2]
  · have h1 : aggOne ts ⟨i, st⟩ = ⟨i, st⟩ := by rw [aggOne, if_neg hsel]
    rw [h1, h1]

/-- Re-running STEP 3 on the whole `workflows` collection with no
intervening writes changes nothing. -/
theorem aggregationPass_idem (ts : List Task) (wfs : List Workflow) :
    aggregationPass ts (aggregationPass ts wfs) = aggregationPass ts wfs := by
  induction wfs with
  | nil => rfl
  | cons wf wfs ih =>
    simp only [aggregationPass, List.map_cons] at ih ⊢
    rw [aggOne_idem ts wf, ih]

/-- C8 (amended): for a workflow in non-terminal (PENDING or RUNNING)
status with at least one task, STEP 3's new status is COMPLETED iff every
task is COMPLETED; FAILED iff at least one task is FAILED and no task is
PENDING or IN_PROGRESS; RUNNING whenever some task is PENDING or
IN_PROGRESS (a RUNNING workflow also stays RUNNING when all its tasks are
BLOCKED); and unchanged when none of the three conditions holds.
Workflows with no tasks are skipped unchanged, and applying the pass
twice with no intervening writes equals applying it once. -/
theorem workflow_aggregation (w : WorkflowStatus) (tasks : List Task)
    (hw : w = WorkflowStatus.PENDING ∨ w = WorkflowStatus.RUNNING)
    (hne : tasks ≠ []) :
    (wfNewStatus w tasks = WorkflowStatus.COMPLETED ↔
      tasks.all (fun t => t.status = TaskStatus.COMPLETED) = true) ∧
    (wfNewStatus w tasks = WorkflowStatus.FAILED ↔
      (tasks.any (fun t => t.status = TaskStatus.FAILED) = true ∧
       tasks.any (fun t =>
         t.status = TaskStatus.IN_PROGRESS ||
           t.status = TaskStatus.PENDING) = false)) ∧
    (tasks.any (fun t =>
       t.status = TaskStatus.IN_PROGRESS ||
         t.status = TaskStatus.PENDING) = true →
      wfNewStatus w tasks = WorkflowStatus.RUNNING) ∧
    (tasks.all (fun t => t.status = TaskStatus.COMPLETED) = false →
     tasks.any (fun t => t.status = TaskStatus.FAILED) = false →
     tasks.any (fun t =>
       t.status = TaskStatus.IN_PROGRESS ||
         t.status = TaskStatus.PENDING) = false →
      wfNewStatus w tasks = w) ∧
    (∀ ts2 wfs, aggregationPass ts2 (aggregationPass ts2 wfs) =
       aggregationPass ts2 wfs) := by
  have hE : tasks.isEmpty = false := by
    cases h : tasks.isEmpty with
    | false => rfl
    | true => exact absurd (List.isEmpty_iff.mp h) hne
  rw [wfNewStatus_eq w tasks hE]
  by_cases hAll : tasks.all (fun t => t.status = TaskStatus.COMPLETED) = true
  · obtain ⟨hact, hfail⟩ := allCompleted_excludes tasks hAll
    refine ⟨by simp [hAll], by simp [hAll, hfail], ?_, ?_,
      fun ts2 wfs => aggregationPass_idem ts2 wfs⟩
    · intro h
      rw [hact] at h
      cases h
    · intro h1 _ _
      rw [hAll] at h1
      cases h1
  · have hAllF : tasks.all (fun t => t.status = TaskStatus.COMPLETED) = false :=
      Bool.eq_false_iff.mpr hAll
    by_cases hAct : tasks.any (fun t =>
        t.status = TaskStatus.IN_PROGRESS || t.status = TaskStatus.PENDING) = true
    · refine ⟨by simp [hAllF, hAct], by simp [hAllF, hAct], by simp [hAllF, hAct], ?_,
        fun ts2 wfs => aggregationPass_idem ts2 wfs⟩
      intro _ _ h3
      rw [hAct] at h3
      cases h3
    · have hActF : tasks.any (fun t =>
          t.status = TaskStatus.IN_PROGRESS ||
            t.status = TaskStatus.PENDING) = false :=
        Bool.eq_false_iff.mpr hAct
      by_cases hFail : tasks.any (fun t => t.status = TaskStatus.FAILED) = true
      · refine ⟨by simp [hAllF, hActF, hFail], by simp [hAllF, hActF, hFail], ?_, ?_,
          fun ts2 wfs => aggregationPass_idem ts2 wfs⟩
        · intro h
          rw [hActF] at h
          cases h
        · intro _ h2 _
          rw [hFail] at h2
          cases h2
      · have hFailF : tasks.any (fun t => t.status = TaskStatus.FAILED) = false :=
          Bool.eq_false_iff.mpr hFail
        rcases hw with hw | hw <;> subst hw <;>
          refine ⟨by simp [hAllF, hActF, hFailF],
            by simp [hAllF, hActF, hFailF], ?_,
            fun _ _ _ => by simp [hAllF, hActF, hFailF],
            fun ts2 wfs => aggregationPass_idem ts2 wfs⟩ <;>
          · intro h
            rw [hActF] at h
            cases h

/-- A BLOCKED task, the only task of its workflow. -/
def blockedOnlyTask : Task :=
  { sampleTask with _id := "bk", status := TaskStatus.BLOCKED }

/-- C8 counterexample: (a) a PENDING workflow with zero tasks is skipped
(`tasks.length === 0 → continue`) although "every task is COMPLETED"
holds vacuously, so the COMPLETED-iff direction fails; (b) a RUNNING
workflow whose only task is BLOCKED keeps status RUNNING although no task
is PENDING or IN_PROGRESS, so the RUNNING-iff direction fails. -/
theorem workflow_aggregation_counterexample :
    (([] : List Task).all (fun t => t.status = TaskStatus.COMPLETED) = true ∧
     wfNewStatus WorkflowStatus.PENDING [] ≠ WorkflowStatus.COMPLETED) ∧
    (wfNewStatus WorkflowStatus.RUNNING [blockedOnlyTask] =
       WorkflowStatus.RUNNING ∧
     [blockedOnlyTask].any (fun t =>
       t.status = TaskStatus.IN_PROGRESS ||
         t.status = TaskStatus.PENDING) = false) :=
  ⟨⟨rfl, by decide⟩, rfl, rfl⟩

/-- Witness for C8 (amended): a RUNNING workflow whose single task is
COMPLETED. -/
theorem workflow_aggregation_witness :
    (wfNewStatus WorkflowStatus.RUNNING [completedDep] =
       WorkflowStatus.COMPLETED ↔
      [completedDep].all (fun t => t.status = TaskStatus.COMPLETED) = true) ∧
    (wfNewStatus WorkflowStatus.RUNNING [completedDep] =
       WorkflowStatus.FAILED ↔
      ([completedDep].any (fun t => t.status = TaskStatus.FAILED) = true ∧
       [completedDep].any (fun t =>
         t.status = TaskStatus.IN_PROGRESS ||
           t.status = TaskStatus.PENDING) = false)) ∧
    ([completedDep].any (fun t =>
       t.status = TaskStatus.IN_PROGRESS ||
         t.status = TaskStatus.PENDING) = true →
      wfNewStatus WorkflowStatus.RUNNING [completedDep] =
        WorkflowStatus.RUNNING) ∧
    ([completedDep].all (fun t => t.status = TaskStatus.COMPLETED) = false →
     [completedDep].any (fun t => t.status = TaskStatus.FAILED) = false →
     [completedDep].any (fun t =>
       t.status = TaskStatus.IN_PROGRESS ||
         t.status = TaskStatus.PENDING) = false →
      wfNewStatus WorkflowStatus.RUNNING [completedDep] =
        WorkflowStatus.RUNNING) ∧
    (∀ ts2 wfs, aggregationPass ts2 (aggregationPass ts2 wfs) =
       aggregationPass ts2 wfs) :=
  workflow_aggregation WorkflowStatus.RUNNING [completedDep]
    (Or.inr rfl) (by decide)

/-! ## Planner handler (`PhoenixWorkers.js`, `PlannerWorker.processTask`) -/

/-- One entry of the parsed plan's `tasks` array. -/
structure PlannedTask where
  id : String
  type : String
  description : String
  dependencies : Option (List String)
  input_context : Option InputContext
deriving DecidableEq, Repr

/-- The child task document inserted by the planner's loop: id and
dependency ids prefixed with `<workflow_id>_`, status BLOCKED iff it has
dependencies, `retry_count = 0`, `max_retries = 3`, null lock fields and
null `output_artifact`. -/
def insertedTask (wid : String) (now : Int) (p : PlannedTask) : Task :=
  let deps := (p.dependencies.getD []).map (fun depId => wid ++ "_" ++ depId)
  { _id := wid ++ "_" ++ p.id,
    workflow_id := wid,
    type := p.type,
    description := some p.description,
    status := if deps.length > 0 then TaskStatus.BLOCKED else TaskStatus.PENDING,
    dependencies := deps,
    retry_count := some 0,
    max_retries := some 3,
    worker_lock := none,
    locked_at := none,
    input_context := p.input_context.getD { dependency_outputs := [], rest := "" },
    output_artifact := none,
    last_error := none,
    failed_at := none,
    completed_at := none,
    created_at := now }

/-- The planner's insertion loop: one `insertOne` (an append) per planned
task, in plan order, with no check of any kind before or between the
inserts. -/
def plannerInsert (wid : String) (now : Int) (plan : List PlannedTask)
    (ts : List Task) : List Task :=
  plan.foldl (fun acc p => acc ++ [insertedTask wid now p]) ts

/-- `PlannerWorker.processTask`, after the language-model call: `parsed`
is the outcome of the source's JSON-parse chain (`some plan.tasks` when
any of the parse attempts succeeded, `none` when they all failed — in
which case the source sets `plan = { tasks: [], parse_error: true }`).
`wid` is the PLAN task's `workflow_id` (insertion is skipped when it is
falsy).  The handler returns `tasks_created` (`plan.tasks?.length || 0`)
and the store after the inserts; it raises nothing on its own. -/
def plannerProcess (parsed : Option (List PlannedTask)) (wid : Option String)
    (now : Int) (ts : List Task) : Except String (Nat × List Task) :=
  let planTasks := parsed.getD []
  let ts2 :=
    match wid with
    | some w => plannerInsert w now planTasks ts
    | none => ts
  Except.ok (planTasks.length, ts2)

/-- Modelled from the spec: the acyclic check by topological pass that
§4.4(3) REQUIRES before insertion ("The produced graph MUST be acyclic
… An acyclic check by topological pass before insertion is REQUIRED").
The source contains no such check; this definition follows the spec's
words and is used only to state claim C6.  `topoDone` repeatedly adds
every plan entry all of whose dependencies are already done or name no
plan entry. -/
def topoDone (plan : List PlannedTask) : Nat → List String → List String
  | 0, done => done
  | n + 1, done =>
    let ready := plan.filter (fun p =>
      !done.contains p.id &&
        (p.dependencies.getD []).all (fun d =>
          done.contains d || !plan.any (fun q => q.id = d)))
    if ready.isEmpty then done
    else topoDone plan n (done ++ ready.map (fun p => p.id))

/-- Modelled from the spec: a plan passes the topological pass iff every
entry becomes done. -/
def planAcyclic (plan : List PlannedTask) : Bool :=
  plan.all (fun p => (topoDone plan plan.length []).contains p.id)

/-- A two-task cyclic plan: `t1` depends on `t2` and `t2` on `t1`. -/
def cyclicPlan : List PlannedTask :=
  [{ id := "t1", type := "SEARCH", description := "a",
     dependencies := some ["t2"], input_context := none },
   { id := "t2", type := "ANALYZE", description := "b",
     dependencies := some ["t1"], input_context := none }]

/-- C6 evidence: the plan is cyclic, yet the planner's handler completes
successfully and inserts both child documents (each BLOCKED on the
other), because the insertion loop performs no acyclicity check. -/
theorem planner_inserts_cyclic_plan :
    planAcyclic cyclicPlan = false ∧
    plannerProcess (some cyclicPlan) (some "wf") 0 [] =
      Except.ok (2, plannerInsert "wf" 0 cyclicPlan []) ∧
    (plannerInsert "wf" 0 cyclicPlan []).map Task._id = ["wf_t1", "wf_t2"] ∧
    (plannerInsert "wf" 0 cyclicPlan []).map Task.status =
      [TaskStatus.BLOCKED, TaskStatus.BLOCKED] :=
  ⟨by decide, rfl, rfl, rfl⟩

/-- C7 evidence: when the language-model response cannot be parsed into a
plan (all parse attempts fail, `parsed = none`), the PLAN handler does
not raise: it returns success with `tasks_created = 0` and an unchanged
store, so the PLAN task is marked COMPLETED rather than re-entering the
retry path. -/
theorem planner_parse_failure_no_raise (now : Int) (ts : List Task) :
    plannerProcess none (some "wf") now ts = Except.ok (0, ts) := rfl

end Phoenix
